import Mathlib

/-!
Verification of the supernet wasm I/O bridge (packages `httpjs`, `streamjs`,
`wsjs`) against its natural-language specification.  Go byte slices are
modelled as `List Nat`, Go errors as an explicit sum, JavaScript host state as
explicit record fields, and each Go function is translated into a pure Lean
function over that state.
-/

/-- Go-side error results relevant to the bridge: `io.EOF`, and any other
error carrying a message string. -/
inductive GoErr where
  | eof
  | errMsg (s : String)
deriving DecidableEq, Repr

namespace httpjs

/-!
## Push-to-Pull stream reader (`jsStreamReader`, http_js.go lines 189-277)

The host side is a JavaScript `ReadableStreamDefaultReader`: each `read()`
call removes and delivers the next queued chunk, and reports `done` once the
stream is exhausted.  We model the host queue as the list of chunks not yet
delivered; an exhausted queue answers every further `read()` with `done`.
The Go struct `jsStreamReader` holds the reader handle and a `closed` flag
(set only by `Close`); `cancelCalls` counts host-side `cancel()` invocations
issued by `Close`.
-/

structure JsStreamReader where
  closed : Bool
  hostChunks : List (List Nat)
  cancelCalls : Nat
deriving DecidableEq, Repr

/-- Model of `jsStreamReader.Read(p)` with `plen = len(p)`.  Mirrors http_js.go
lines 200-262: a closed reader returns `(0, io.EOF)`; otherwise one host
`read()` is issued.  `done` yields `(0, io.EOF)`; a zero-length chunk yields
`(0, nil)`; otherwise `copyLen = min(len(chunk), len(p))` bytes are copied out
of a truncated `Uint8Array` view of the chunk.  The host has already dequeued
the whole chunk, and the struct stores no leftover, so the bytes past
`copyLen` are not retained anywhere. -/
def jsRead (r : JsStreamReader) (plen : Nat) :
    (List Nat × Option GoErr) × JsStreamReader :=
  if r.closed then (([], some .eof), r)
  else
    match r.hostChunks with
    | [] => (([], some .eof), r)
    | c :: rest =>
        let copyLen := min c.length plen
        ((c.take copyLen, none), { r with hostChunks := rest })

/-- Drive `jsRead` with a list of caller buffer sizes, concatenating the
bytes delivered to the caller; reading stops at the first error
(`io.EOF` included), exactly as a consumer loop would. -/
def jsReadAllWith (r : JsStreamReader) : List Nat → List Nat
  | [] => []
  | plen :: rest =>
      match jsRead r plen with
      | ((bytes, none), r') => bytes ++ jsReadAllWith r' rest
      | ((_, some _), _) => []

/-- Model of `jsStreamReader.Close` (http_js.go lines 266-277): a second call returns
immediately; the first marks the reader closed and issues one host
`cancel()`. -/
def jsClose (r : JsStreamReader) : JsStreamReader :=
  if r.closed then r
  else { r with closed := true, cancelCalls := r.cancelCalls + 1 }

end httpjs

namespace httpjs

/-- Claim C1: reading a host stream through `jsStreamReader.Read` with caller
buffers smaller than a host chunk is claimed to retain the chunk remainder
for later reads and reproduce the byte sequence exactly.  Evaluating the code
at the failing input — one host chunk `[1,2,3]` read with 2-byte caller
buffers — shows the first read delivers `[1,2]`, the trailing byte `3` is
dropped (the struct has no leftover store and the host already dequeued the
chunk), and the next read reports end of data, so the caller observes
`[1,2]`, not the original sequence `[1,2,3]`. -/
theorem c1_read_drops_oversized_chunk_tail :
    jsReadAllWith ⟨false, [[1, 2, 3]], 0⟩ [2, 2, 2] = [1, 2]
    ∧ jsReadAllWith ⟨false, [[1, 2, 3]], 0⟩ [2, 2, 2] ≠ [1, 2, 3]
    ∧ (jsRead ⟨false, [[1, 2, 3]], 0⟩ 2).2.hostChunks = []
    ∧ (jsRead ⟨false, [], 0⟩ 2).1 = ([], some .eof) := by
  refine ⟨rfl, by decide, rfl, rfl⟩

end httpjs

namespace httpjs

/-!
## Streaming responder (`ServeHTTPAsyncWithStreaming` and
`streamingResponseWriter`, http_js.go lines 485-592)

The response writer state mirrors the Go struct plus the two channel-visible
effects: `headerSignaled` records whether `close(wroteHeaderChan)` has run
(it runs only inside `WriteHeader`), and the `io.Pipe` is modelled by the
bytes written into it (`body`) together with the terminal error installed by
`CloseWithError` (`pipeErr`; a plain `Close` after `CloseWithError` keeps the
first error, and a plain `Close` alone leaves `none`, i.e. clean EOF).
-/

structure RespWriter where
  statusCode : Nat
  wroteHeader : Bool
  headerSignaled : Bool
  headerMap : List (String × String)
  body : List Nat
  pipeErr : Option String
deriving DecidableEq, Repr

/-- The writer `ServeHTTPAsyncWithStreaming` constructs: status 200, empty
header map, header not yet committed. -/
def initWriter : RespWriter :=
  { statusCode := 200, wroteHeader := false, headerSignaled := false,
    headerMap := [], body := [], pipeErr := none }

/-- Model of `http.Header.Set`: replace any existing value for the key. -/
def hSet (w : RespWriter) (k v : String) : RespWriter :=
  { w with headerMap := (w.headerMap.filter (fun e => e.1 ≠ k)) ++ [(k, v)] }

/-- Model of `http.Header.Del`: drop the key. -/
def hDel (w : RespWriter) (k : String) : RespWriter :=
  { w with headerMap := w.headerMap.filter (fun e => e.1 ≠ k) }

/-- Model of `streamingResponseWriter.WriteHeader` (lines 586-592): when no header has
been committed it stores the code, marks the commit and closes
`wroteHeaderChan`; otherwise the call is ignored. -/
def writeHeader (w : RespWriter) (code : Nat) : RespWriter :=
  if w.wroteHeader then w
  else { w with statusCode := code, wroteHeader := true, headerSignaled := true }

/-- String payloads written to the pipe, as bytes. -/
def strBytes (s : String) : List Nat :=
  s.toList.map Char.toNat

/-- Model of `streamingResponseWriter.Write` (lines 576-581): an implicit
`WriteHeader(200)` on first write, then the bytes go into the pipe. -/
def wWrite (w : RespWriter) (b : List Nat) : RespWriter :=
  let w := if w.wroteHeader then w else writeHeader w 200
  { w with body := w.body ++ b }

/-- Model of `http.Error(w, msg, code)` from net/http, as called at line 529: deletes
Content-Length, sets Content-Type and X-Content-Type-Options, calls
`WriteHeader(code)` and writes `msg` followed by a newline. -/
def httpError (w : RespWriter) (msg : String) (code : Nat) : RespWriter :=
  let w := hDel w "Content-Length"
  let w := hSet w "Content-Type" "text/plain; charset=utf-8"
  let w := hSet w "X-Content-Type-Options" "nosniff"
  let w := writeHeader w code
  wWrite w (strBytes (msg ++ "\n"))

/-- A request handler, as the sequence of calls it makes on the
`http.ResponseWriter`; `fault` is a panic escaping the handler. -/
inductive HAction where
  | setHeader (k v : String)
  | writeHeader (code : Nat)
  | write (bytes : List Nat)
  | fault
deriving DecidableEq, Repr

/-- Run the handler body (`handler.ServeHTTP(respWriter, httpReq)`): execute
its writer calls in order; a fault aborts the remainder and is reported in
the boolean (it is caught by the deferred `recover` in the worker). -/
def runActions (w : RespWriter) : List HAction → RespWriter × Bool
  | [] => (w, false)
  | .setHeader k v :: rest => runActions (hSet w k v) rest
  | .writeHeader c :: rest => runActions (writeHeader w c) rest
  | .write b :: rest => runActions (wWrite w b) rest
  | .fault :: _ => (w, true)

/-- The worker goroutine of `ServeHTTPAsyncWithStreaming` (lines 514-531) run
to completion.  On a fault the deferred `recover` assigns
`statusCode = 500` directly (without going through `WriteHeader`, so
`wroteHeaderChan` is not touched) and terminates the pipe with
`CloseWithError`; the outer deferred `pw.Close()` then keeps that error.
On normal return with no committed header, the code calls `WriteHeader(502)`
followed by `http.Error(..., "Bad Gateway\n\nUpstream server error", 502)`,
and the deferred `pw.Close()` ends the pipe cleanly. -/
def worker (acts : List HAction) : RespWriter :=
  match runActions initWriter acts with
  | (w, true) => { w with statusCode := 500, pipeErr := some "internal server error" }
  | (w, false) =>
      if w.wroteHeader then w
      else httpError (writeHeader w 502) "Bad Gateway\n\nUpstream server error" 502

/-- What the host obtains from the promise returned by
`ServeHTTPAsyncWithStreaming`: either a response (status, streamed body
bytes, terminal pipe state) or no settlement at all. -/
inductive RespondResult where
  | hang
  | response (status : Nat) (body : List Nat) (pipeErr : Option String)
deriving DecidableEq, Repr

/-- The bridge goroutine (lines 533-546): it resumes from
`<-respWriter.wroteHeaderChan` only if some `WriteHeader` closed that
channel, then builds the response from the writer's status and the pipe.
`worker` is run to completion first: on the single-threaded wasm scheduler
the handler goroutine keeps running after `close(wroteHeaderChan)` until it
blocks or exits, and pipe writes only complete once the resolved response's
stream is pulled, so every byte written and every later field assignment in
the worker is in place before the status is captured whenever the worker
does not block between the commit and its exit.  If the channel is never
closed the bridge goroutine blocks forever and the promise never settles. -/
def serveStreaming (acts : List HAction) : RespondResult :=
  let w := worker acts
  if w.headerSignaled then .response w.statusCode w.body w.pipeErr else .hang

end httpjs

namespace httpjs

/-- Once `wroteHeader` is set, no later handler action clears it. -/
theorem runActions_wroteHeader_mono (acts : List HAction) (w : RespWriter)
    (h : w.wroteHeader = true) : (runActions w acts).1.wroteHeader = true := by
  induction acts generalizing w with
  | nil => simpa [runActions] using h
  | cons a rest ih =>
    cases a with
    | setHeader k v => exact ih _ (by simp [hSet, h])
    | writeHeader c => exact ih _ (by simp [writeHeader, h])
    | write b => exact ih _ (by simp [wWrite, writeHeader, h])
    | fault => simpa [runActions] using h

/-- A handler run that neither faults nor commits headers leaves every
wire-relevant writer field untouched (only the header map may change). -/
theorem runActions_no_commit (acts : List HAction) (w : RespWriter)
    (hnp : (runActions w acts).2 = false)
    (hnc : (runActions w acts).1.wroteHeader = false) :
    (runActions w acts).1.statusCode = w.statusCode
    ∧ (runActions w acts).1.body = w.body
    ∧ (runActions w acts).1.headerSignaled = w.headerSignaled
    ∧ (runActions w acts).1.pipeErr = w.pipeErr := by
  induction acts generalizing w with
  | nil => simp [runActions]
  | cons a rest ih =>
    cases a with
    | setHeader k v =>
      have h := ih (hSet w k v) (by simpa [runActions] using hnp)
        (by simpa [runActions] using hnc)
      simpa [runActions, hSet] using h
    | writeHeader c =>
      exfalso
      have hcommit : (writeHeader w c).wroteHeader = true := by
        by_cases hw : w.wroteHeader <;> simp [writeHeader, hw]
      have hmono := runActions_wroteHeader_mono rest (writeHeader w c) hcommit
      have hnc' : (runActions (writeHeader w c) rest).1.wroteHeader = false := by
        simpa [runActions] using hnc
      rw [hmono] at hnc'
      exact absurd hnc' (by simp)
    | write b =>
      exfalso
      have hcommit : (wWrite w b).wroteHeader = true := by
        by_cases hw : w.wroteHeader <;> simp [wWrite, writeHeader, hw]
      have hmono := runActions_wroteHeader_mono rest (wWrite w b) hcommit
      have hnc' : (runActions (wWrite w b) rest).1.wroteHeader = false := by
        simpa [runActions] using hnc
      rw [hmono] at hnc'
      exact absurd hnc' (by simp)
    | fault => simp [runActions] at hnp

end httpjs

namespace httpjs

/-- Claim C2: a handler that faults before committing headers is claimed to
yield a status-500 response with an errored body stream.  Evaluating the code
at the failing input — a handler that faults immediately — shows the
recovery block does set the stored status to 500 and terminates the pipe
with an error, but it never signals `wroteHeaderChan` (only `WriteHeader`
does), so the bridge goroutine stays blocked on that channel and the promise
never settles: no response, 500 or otherwise, ever reaches the host. -/
theorem c2_fault_before_commit_never_resolves :
    serveStreaming [HAction.fault] = .hang
    ∧ (worker [HAction.fault]).statusCode = 500
    ∧ (worker [HAction.fault]).pipeErr = some "internal server error"
    ∧ (worker [HAction.fault]).headerSignaled = false :=
  ⟨rfl, rfl, rfl, rfl⟩

/-- Claim C4: every handler that returns without ever calling `WriteHeader`
(and hence without writing body bytes, since a first `Write` would commit)
makes the responder produce a status-502 response whose body is the
`http.Error` text, which contains "Bad Gateway". -/
theorem c4_handler_without_commit_yields_502 (acts : List HAction)
    (hnp : (runActions initWriter acts).2 = false)
    (hnc : (runActions initWriter acts).1.wroteHeader = false) :
    serveStreaming acts =
      .response 502 (strBytes "Bad Gateway\n\nUpstream server error\n") none
    ∧ ∃ t, strBytes "Bad Gateway\n\nUpstream server error\n" =
        strBytes "Bad Gateway" ++ t := by
  constructor
  · have hfields := runActions_no_commit acts initWriter hnp hnc
    obtain ⟨hsc, hbody, hsig, hpe⟩ := hfields
    unfold serveStreaming worker
    rcases hra : runActions initWriter acts with ⟨w, b⟩
    rw [hra] at hnp hnc hsc hbody hsig hpe
    simp only at hnp hnc hsc hbody hsig hpe
    subst hnp
    simp [hnc, httpError, hDel, hSet, writeHeader, wWrite, hbody,
      hpe, initWriter, strBytes]
  · exact ⟨strBytes "\n\nUpstream server error\n", by decide⟩

/-- Witness for C4: a handler that only mutates the header map and returns
without committing. -/
theorem c4_witness :
    ((runActions initWriter [HAction.setHeader "X-Trace" "1"]).2 = false
      ∧ (runActions initWriter [HAction.setHeader "X-Trace" "1"]).1.wroteHeader = false)
    ∧ (serveStreaming [HAction.setHeader "X-Trace" "1"] =
        .response 502 (strBytes "Bad Gateway\n\nUpstream server error\n") none
      ∧ ∃ t, strBytes "Bad Gateway\n\nUpstream server error\n" =
          strBytes "Bad Gateway" ++ t) :=
  ⟨⟨rfl, rfl⟩, c4_handler_without_commit_yields_502 _ rfl rfl⟩

/-- Claim C5: once headers are committed the status is claimed never to
change, a fault after commit manifesting only as a body-stream error.
Evaluating the code at the failing input — a handler that commits status 201
and then faults — shows the recovery block overwrites the stored status with
500 unconditionally, so the response the bridge builds after the worker
exits carries status 500, not the committed 201 (subsequent `WriteHeader`
calls are indeed ignored, but the recover path bypasses `WriteHeader`). -/
theorem c5_fault_after_commit_overwrites_status :
    (runActions initWriter [HAction.writeHeader 201]).1.statusCode = 201
    ∧ (runActions initWriter [HAction.writeHeader 201]).1.wroteHeader = true
    ∧ serveStreaming [HAction.writeHeader 201, HAction.fault]
        = .response 500 [] (some "internal server error")
    ∧ writeHeader (runActions initWriter [HAction.writeHeader 201]).1 404
        = (runActions initWriter [HAction.writeHeader 201]).1 :=
  ⟨rfl, rfl, rfl, rfl⟩

end httpjs

namespace wsjs

/-!
## Duplex socket adapter (`wsjs.Conn`, part_000)

`Conn` buffers inbound frames in `messageChan` (a FIFO Go channel, capacity
128) and signals closure by closing `closeChan`.  `NextMessage` is a two-way
`select`; when both a buffered message and the close signal are ready, the Go
runtime picks a ready case uniformly at random, which we expose as the
`pick` argument (`true` = the message case). -/

structure WsConn where
  queue : List (List Nat)
  closed : Bool
deriving DecidableEq, Repr

/-- Outcome of one `NextMessage` call: a dequeued message, the `ErrClosed`
error, or a blocked call (neither channel ready). -/
inductive NextResult where
  | msg (m : List Nat)
  | closedErr
  | blocked
deriving DecidableEq, Repr

/-- Model of `Conn.NextMessage` (part_000 lines 124-131): `select` over
`<-conn.messageChan` and `<-conn.closeChan`.  Only one case ready: take it.
Both ready: the runtime chooses (`pick`).  Neither: the call blocks. -/
def nextMessage (c : WsConn) (pick : Bool) : NextResult × WsConn :=
  match c.queue with
  | [] => if c.closed then (.closedErr, c) else (.blocked, c)
  | m :: rest =>
      if c.closed then
        if pick then (.msg m, { c with queue := rest }) else (.closedErr, c)
      else (.msg m, { c with queue := rest })

/-- Repeated `NextMessage` calls, one runtime choice per call, collecting the
messages delivered before the first non-message outcome. -/
def drainMsgs (c : WsConn) : List Bool → List (List Nat)
  | [] => []
  | pick :: picks =>
      match nextMessage c pick with
      | (.msg m, c') => m :: drainMsgs c' picks
      | (.closedErr, _) => []
      | (.blocked, _) => []

end wsjs

namespace wsjs

/-- Counterexample to claim C3: with one message still buffered and the
connection closed, the `select` in `NextMessage` may take the close case and
return `ErrClosed` even though the queue is not drained — the queue `[[7]]`
is nonempty, yet the call returns the Closed error and leaves the message
buffered. -/
theorem c3_counterexample_closederr_with_buffered_message :
    nextMessage ⟨[[7]], true⟩ false = (.closedErr, ⟨[[7]], true⟩)
    ∧ ([[7]] : List (List Nat)) ≠ [] :=
  ⟨rfl, by decide⟩

/-- Claim C3 as amended: messages are delivered in FIFO order (any run of
`NextMessage` calls yields a prefix of the buffered queue, in order), and
`ErrClosed` is returned only when the connection is closed — but possibly
before the queue is drained, since the choice between a buffered message and
the close signal is nondeterministic. -/
theorem c3_fifo_and_closederr_needs_close :
    (∀ (c : WsConn) (picks : List Bool),
        ∃ rest, drainMsgs c picks ++ rest = c.queue)
    ∧ (∀ (c : WsConn) (pick : Bool),
        (nextMessage c pick).1 = .closedErr → c.closed = true) := by
  constructor
  · intro c picks
    induction picks generalizing c with
    | nil => exact ⟨c.queue, rfl⟩
    | cons pick picks ih =>
      rcases c with ⟨queue, closed⟩
      cases queue with
      | nil =>
        cases closed <;> exact ⟨[], rfl⟩
      | cons m rest =>
        cases closed with
        | false =>
          obtain ⟨r, hr⟩ := ih ⟨rest, false⟩
          exact ⟨r, by simpa [drainMsgs, nextMessage] using congrArg (m :: ·) hr⟩
        | true =>
          cases pick with
          | false => exact ⟨m :: rest, rfl⟩
          | true =>
            obtain ⟨r, hr⟩ := ih ⟨rest, true⟩
            exact ⟨r, by simpa [drainMsgs, nextMessage] using congrArg (m :: ·) hr⟩
  · intro c pick h
    rcases c with ⟨queue, closed⟩
    cases queue with
    | nil =>
      cases closed with
      | true => rfl
      | false => simp [nextMessage] at h
    | cons m rest =>
      cases closed with
      | true => rfl
      | false => simp [nextMessage] at h

/-- Witness for the amended C3 theorem, at concrete states: an empty, closed
queue does return `ErrClosed` with the connection closed, and draining
`[[1],[2],[3]]` yields a prefix of that queue in order. -/
theorem c3_witness :
    (⟨[], true⟩ : WsConn).closed = true
    ∧ ∃ rest, drainMsgs ⟨[[1], [2], [3]], false⟩ [true, true, true] ++ rest
        = [[1], [2], [3]] :=
  ⟨c3_fifo_and_closederr_needs_close.2 ⟨[], true⟩ true rfl,
   c3_fifo_and_closederr_needs_close.1 ⟨[[1], [2], [3]], false⟩ [true, true, true]⟩

end wsjs

namespace streamjs

/-!
## Pull-to-Push producer (`NewReadableStream`, streamjs package)

Each host `pull` triggers exactly one `Read` into the reused 4096-byte
scratch buffer `rs.buffer`.  A `Read` call is modelled by the pair of the
bytes it places at the front of the scratch and the error it returns; the
code inspects the error first, so any bytes accompanying a non-nil error are
dropped.  On success with `n > 0` the code allocates a fresh `Uint8Array` of
exactly `n` bytes, copies `rs.buffer[:n]` into it and enqueues it. -/

inductive StreamEnd where
  | closedEnd
  | errored (msg : String)
  | pending
deriving DecidableEq, Repr

/-- Run the pull callback over a trace of `Read` outcomes, threading the
scratch buffer: after a successful read of `data`, the scratch holds `data`
followed by the stale tail of its previous contents, and the enqueued chunk
is the exact-length copy `scratch'.take data.length`.  `io.EOF` closes the
stream; any other error signals it to the host; an exhausted trace leaves
the stream awaiting its next pull. -/
def producerRun (scratch : List Nat) :
    List (List Nat × Option GoErr) → List (List Nat) × StreamEnd
  | [] => ([], .pending)
  | (data, err) :: rest =>
      match err with
      | some .eof => ([], .closedEnd)
      | some (.errMsg m) => ([], .errored m)
      | none =>
          let scratch' := data ++ scratch.drop data.length
          let res := producerRun scratch' rest
          (if data = [] then res.1 else scratch'.take data.length :: res.1, res.2)

/-- For a trace of successful reads followed by `io.EOF`, the producer
enqueues exactly the nonempty data batches, in order, independent of the
scratch contents, and then closes the stream. -/
theorem producerRun_ok_trace (oks : List (List Nat × Option GoErr))
    (scratch : List Nat) (hok : ∀ x ∈ oks, x.2 = none) :
    producerRun scratch (oks ++ [([], some .eof)])
      = ((oks.map Prod.fst).filter (fun d => d ≠ []), .closedEnd) := by
  induction oks generalizing scratch with
  | nil => simp [producerRun]
  | cons x rest ih =>
    obtain ⟨data, err⟩ := x
    have he : err = none := hok (data, err) (by simp)
    subst he
    have ihrest : producerRun (data ++ scratch.drop data.length)
        (rest ++ [([], some .eof)])
        = ((rest.map Prod.fst).filter (fun d => d ≠ []), .closedEnd) :=
      ih _ (fun y hy => hok y (by simp [hy]))
    simp only [List.cons_append, producerRun, List.append_eq]
    rw [ihrest]
    by_cases hd : data = []
    · subst hd
      simp
    · rw [if_neg hd, List.take_left]
      simp [hd]

/-- Dropping the empty batches does not change the total byte count. -/
theorem sum_filter_ne_nil (ds : List (List Nat)) :
    (((ds.filter (fun d => d ≠ [])).map List.length).sum : Nat)
      = ((ds.map List.length).sum : Nat) := by
  induction ds with
  | nil => rfl
  | cons d rest ih =>
    by_cases hd : d = []
    · subst hd
      simpa using ih
    · have hdec : (decide (d ≠ []) : Bool) = true := by simp [hd]
      simp only [List.filter_cons, hdec, if_true, List.map_cons, List.sum_cons, ih]

/-- Claim C6: for an underlying reader that yields its bytes over successful
reads (each at most the 4096-byte scratch capacity, as `Read(rs.buffer)`
guarantees) and then reports `io.EOF`, the producer closes the stream, the
enqueued chunks are exactly the nonempty reads in order — each a fresh
exact-sized copy of the bytes just read, never exposing stale scratch bytes —
their lengths sum to the total number of bytes yielded, and no chunk exceeds
4096 bytes. -/
theorem c6_producer_emits_exactly_then_closes
    (oks : List (List Nat × Option GoErr)) (scratch : List Nat)
    (hok : ∀ x ∈ oks, x.2 = none) (hlen : ∀ x ∈ oks, x.1.length ≤ 4096) :
    (producerRun scratch (oks ++ [([], some .eof)])).2 = .closedEnd
    ∧ (producerRun scratch (oks ++ [([], some .eof)])).1
        = (oks.map Prod.fst).filter (fun d => d ≠ [])
    ∧ (((producerRun scratch (oks ++ [([], some .eof)])).1.map List.length).sum : Nat)
        = (((oks.map Prod.fst).map List.length).sum : Nat)
    ∧ ∀ ch ∈ (producerRun scratch (oks ++ [([], some .eof)])).1,
        ch.length ≤ 4096 ∧ ch ≠ [] := by
  have hrun := producerRun_ok_trace oks scratch hok
  refine ⟨by rw [hrun], by rw [hrun], ?_, ?_⟩
  · rw [hrun]
    exact sum_filter_ne_nil _
  · intro ch hch
    rw [hrun] at hch
    simp only [List.mem_filter, List.mem_map, decide_eq_true_eq] at hch
    obtain ⟨⟨x, hx, hxe⟩, hne⟩ := hch
    subst hxe
    exact ⟨hlen x hx, hne⟩

/-- Witness for C6: three successful reads (one empty) then end of data,
with the scratch in its initial all-zero state. -/
theorem c6_witness :
    ((∀ x ∈ [([1, 2], (none : Option GoErr)), ([], none), ([3], none)], x.2 = none)
      ∧ (∀ x ∈ [([1, 2], (none : Option GoErr)), ([], none), ([3], none)],
          x.1.length ≤ 4096))
    ∧ ((producerRun (List.replicate 4096 0)
          ([([1, 2], none), ([], none), ([3], none)] ++ [([], some .eof)])).2
            = .closedEnd
      ∧ (producerRun (List.replicate 4096 0)
          ([([1, 2], none), ([], none), ([3], none)] ++ [([], some .eof)])).1
            = ([([1, 2], (none : Option GoErr)), ([], none), ([3], none)].map
                Prod.fst).filter (fun d => d ≠ [])
      ∧ (((producerRun (List.replicate 4096 0)
          ([([1, 2], none), ([], none), ([3], none)] ++ [([], some .eof)])).1.map
            List.length).sum : Nat)
            = ((([([1, 2], (none : Option GoErr)), ([], none), ([3], none)].map
                Prod.fst).map List.length).sum : Nat)
      ∧ ∀ ch ∈ (producerRun (List.replicate 4096 0)
          ([([1, 2], none), ([], none), ([3], none)] ++ [([], some .eof)])).1,
            ch.length ≤ 4096 ∧ ch ≠ []) :=
  ⟨⟨by decide, by decide⟩,
   c6_producer_emits_exactly_then_closes
     [([1, 2], none), ([], none), ([3], none)] (List.replicate 4096 0)
     (by decide) (by decide)⟩

end streamjs

namespace streamjs

/-!
## `ReadableStream.Close` lifecycle (streamjs package)

`Close` releases the three registered `js.Func` callbacks and then closes
the underlying reader through `closeOnce`.  `js.Func.Release` deletes the
function id from the runtime's callback table; deleting an id that is
already absent changes nothing, so the released callbacks are modelled as a
flag.  `readerCloseCalls` counts invocations of the underlying reader's
`Close`, which the `sync.Once` guard permits at most once. -/

structure RSLifecycle where
  funcsReleased : Bool
  closeOnceDone : Bool
  readerCloseCalls : Nat
deriving DecidableEq, Repr

/-- Model of `ReadableStream.Close` (streamjs): release all callbacks, then
`closeOnce.Do(rs.r.Close)`. -/
def rsClose (rs : RSLifecycle) : RSLifecycle :=
  let rs := { rs with funcsReleased := true }
  if rs.closeOnceDone then rs
  else { rs with closeOnceDone := true,
                 readerCloseCalls := rs.readerCloseCalls + 1 }

end streamjs

namespace wsjs

/-- WHATWG WebSocket ready states. -/
inductive WsReadyState where
  | connecting
  | openSt
  | closing
  | closedSt
deriving DecidableEq, Repr

/-- The `Conn.Close` view of a connection: the host socket's state and
whether the registered callbacks have been released (`js.Func.Release` is an
idempotent table delete, modelled as a flag as in `streamjs`). -/
structure ConnLifecycle where
  sock : WsReadyState
  funcsReleased : Bool
deriving DecidableEq, Repr

/-- WHATWG `WebSocket.close()`: if the connection is already CLOSING or
CLOSED, do nothing; otherwise start the closing handshake. -/
def hostWsClose : WsReadyState → WsReadyState
  | .closing => .closing
  | .closedSt => .closedSt
  | _ => .closing

/-- Receiving from `closeChan` returns only once the close event has fired, after
which the socket is CLOSED; when `closeChan` is already closed the receive
returns immediately with the socket still CLOSED. -/
def awaitCloseEvent : WsReadyState → WsReadyState
  | _ => .closedSt

/-- Model of `Conn.Close` (part_000 lines 114-119): call `ws.close()`, wait for the
close event, release the callbacks. -/
def connClose (c : ConnLifecycle) : ConnLifecycle :=
  { sock := awaitCloseEvent (hostWsClose c.sock), funcsReleased := true }

end wsjs

/-- Claim C7: calling `Close` twice on the Push-to-Pull reader
(`jsStreamReader`), the Pull-to-Push stream (`ReadableStream`) and the
socket (`Conn`) leaves exactly the state a single call leaves: the second
call changes neither local state nor host resources (the reader's `cancel`
and the underlying closes fire at most once; callback release and the host
socket close are idempotent host operations). -/
theorem c7_close_twice_is_close_once :
    (∀ r : httpjs.JsStreamReader,
        httpjs.jsClose (httpjs.jsClose r) = httpjs.jsClose r)
    ∧ (∀ rs : streamjs.RSLifecycle,
        streamjs.rsClose (streamjs.rsClose rs) = streamjs.rsClose rs)
    ∧ (∀ c : wsjs.ConnLifecycle,
        wsjs.connClose (wsjs.connClose c) = wsjs.connClose c) := by
  refine ⟨?_, ?_, ?_⟩
  · intro r
    by_cases hc : r.closed <;> simp [httpjs.jsClose, hc]
  · intro rs
    by_cases hc : rs.closeOnceDone <;> simp [streamjs.rsClose, hc]
  · intro c
    rfl

namespace httpjs

/-- A Go byte slice result, distinguishing the nil slice from an allocated
(possibly empty) one. -/
inductive GoSlice where
  | nilSlice
  | bytes (data : List Nat)
deriving DecidableEq, Repr

/-- The loop of `Response.ReadAll` (http_js.go lines 293-310) over a trace of
`Read` results: bytes are appended to the `bytes.Buffer` before the error is
inspected; `io.EOF` ends the loop and returns `buf.Bytes()` — which is the
nil slice when nothing was ever written, since the zero `bytes.Buffer` never
allocated — and any other error returns `(nil, err)`, discarding the
accumulated bytes.  `none` means the trace ended before the reader
terminated, i.e. the loop is still reading. -/
def readAllLoop (acc : List Nat) :
    List (List Nat × Option GoErr) → Option (GoSlice × Option GoErr)
  | [] => none
  | (data, e) :: rest =>
      let acc' := acc ++ data
      match e with
      | some .eof => some (if acc' = [] then .nilSlice else .bytes acc', none)
      | some (.errMsg m) => some (.nilSlice, some (.errMsg m))
      | none => readAllLoop acc' rest

/-- Model of `Response.ReadAll` (lines 288-311): with no `bodyReader` it returns the
allocated empty slice `[]byte{}` and no error; otherwise it drains the
reader in 4096-byte increments (each trace entry is one `Read` into the
fixed `make([]byte, 4096)` buffer). -/
def respReadAll (body : Option (List (List Nat × Option GoErr))) :
    Option (GoSlice × Option GoErr) :=
  match body with
  | none => some (.bytes [], none)
  | some tr => readAllLoop [] tr

/-- Draining a trace of successful reads followed by `io.EOF` accumulates
every byte in order, whatever is already in the buffer. -/
theorem readAllLoop_ok_trace (oks : List (List Nat × Option GoErr))
    (acc : List Nat) (hok : ∀ x ∈ oks, x.2 = none) :
    readAllLoop acc (oks ++ [([], some .eof)])
      = some (if acc ++ (oks.map Prod.fst).flatten = [] then GoSlice.nilSlice
              else .bytes (acc ++ (oks.map Prod.fst).flatten), none) := by
  induction oks generalizing acc with
  | nil => simp [readAllLoop]
  | cons x rest ih =>
    obtain ⟨data, err⟩ := x
    have he : err = none := hok (data, err) (by simp)
    subst he
    have ihrest := ih (acc ++ data) (fun y hy => hok y (by simp [hy]))
    simp only [List.cons_append, readAllLoop, List.append_eq]
    rw [ihrest]
    simp only [List.map_cons, List.flatten_cons, ← List.append_assoc]

/-- Claim C8: `ReadAll` on a response with no body returns the zero-length,
non-nil buffer and no error, and on a present body it drains the reader
(4096 bytes at a time, the model's per-read granularity) until end-of-data,
returning every byte delivered before `io.EOF`, in order. -/
theorem c8_readall_drains_and_empty_body
    (oks : List (List Nat × Option GoErr)) (hok : ∀ x ∈ oks, x.2 = none) :
    respReadAll none = some (.bytes [], none)
    ∧ respReadAll (some (oks ++ [([], some .eof)]))
        = some (if (oks.map Prod.fst).flatten = [] then GoSlice.nilSlice
                else .bytes ((oks.map Prod.fst).flatten), none) := by
  refine ⟨rfl, ?_⟩
  have h := readAllLoop_ok_trace oks [] hok
  simpa [respReadAll] using h

/-- Witness for C8: a body delivering `[1,2]` then `[3]` then end-of-data. -/
theorem c8_witness :
    (∀ x ∈ [([1, 2], (none : Option GoErr)), ([3], none)], x.2 = none)
    ∧ (respReadAll none = some (.bytes [], none)
      ∧ respReadAll (some ([([1, 2], none), ([3], none)] ++ [([], some .eof)]))
          = some (if ([([1, 2], (none : Option GoErr)), ([3], none)].map
                      Prod.fst).flatten = [] then GoSlice.nilSlice
                  else .bytes (([([1, 2], (none : Option GoErr)),
                      ([3], none)].map Prod.fst).flatten), none)) :=
  ⟨by decide,
   c8_readall_drains_and_empty_body [([1, 2], none), ([3], none)] (by decide)⟩

end httpjs

namespace wsjs

/-!
## Outbound send (`Conn.Send`, `WsStream.Write`)

The host socket after a successful `Dial` is either OPEN or has been closed.
Per the WHATWG WebSocket specification, `send()` on an OPEN socket transmits
the data as a single frame, while on a CLOSING/CLOSED socket the data is
silently discarded; in neither case does the call report a failure to the
caller. -/

structure HostWs where
  openState : Bool
  sentFrames : List (List Nat)
deriving DecidableEq, Repr

/-- The host's `ws.send(buffer)`: one binary frame carrying the whole buffer
when OPEN, a silent discard when closed; no error either way. -/
def hostSend (h : HostWs) (data : List Nat) : HostWs × Option GoErr :=
  if h.openState then ({ h with sentFrames := h.sentFrames ++ [data] }, none)
  else (h, none)

/-- Model of `Conn.Send` (part_000 lines 136-144): copy the entire slice into a fresh
`ArrayBuffer`, call `ws.send` once with it, return nil.  The function reads
no Go-side connection state — there is no closed pre-check — so its result
is exactly whatever the host call reports. -/
def connSend (h : HostWs) (data : List Nat) : HostWs × Option GoErr :=
  hostSend h data

/-- Model of `WsStream.Write` (http_js.go wsjs section lines 792-802): a single
`Send` of the whole slice; on success it reports `n = len(p)`, otherwise
`(0, err)`. -/
def wsWrite (h : HostWs) (p : List Nat) : HostWs × Nat × Option GoErr :=
  match connSend h p with
  | (h', none) => (h', p.length, none)
  | (h', some e) => (h', 0, some e)

/-- Claim C9: `Send` transmits the entire buffer as one binary frame,
all-or-nothing, when the socket is open; it performs no close pre-check, so
a `Send` after close returns exactly what the host reports — no failure,
since the host silently discards the frame; and `WsStream.Write` reports
`n = len(p)` together with no error exactly when `Send` succeeds. -/
theorem c9_send_whole_frame_no_precheck :
    (∀ (h : HostWs) (p : List Nat), h.openState = true →
        (connSend h p).1.sentFrames = h.sentFrames ++ [p]
          ∧ (connSend h p).2 = none)
    ∧ (∀ (h : HostWs) (p : List Nat),
        (connSend h p).2 = (hostSend h p).2)
    ∧ (∀ (h : HostWs) (p : List Nat), h.openState = false →
        (connSend h p).2 = none ∧ (connSend h p).1 = h)
    ∧ (∀ (h : HostWs) (p : List Nat),
        ((wsWrite h p).2.1 = p.length ∧ (wsWrite h p).2.2 = none)
          ↔ (connSend h p).2 = none) := by
  refine ⟨?_, ?_, ?_, ?_⟩
  · intro h p hopen
    simp [connSend, hostSend, hopen]
  · intro h p
    rfl
  · intro h p hclosed
    simp [connSend, hostSend, hclosed]
  · intro h p
    have hs : (connSend h p).2 = none := by
      by_cases ho : h.openState <;> simp [connSend, hostSend, ho]
    constructor
    · intro _
      exact hs
    · intro _
      simp [wsWrite]
      rcases hc : connSend h p with ⟨h', e⟩
      rw [hc] at hs
      simp at hs
      subst hs
      simp

/-- Witness for C9: sending `[5,6]` on an open socket appends it as one
frame with no error, and sending on a closed socket is a reported-error-free
discard. -/
theorem c9_witness :
    ((connSend ⟨true, []⟩ [5, 6]).1.sentFrames = [] ++ [[5, 6]]
      ∧ (connSend ⟨true, []⟩ [5, 6]).2 = none)
    ∧ ((connSend ⟨false, []⟩ [5, 6]).2 = none
      ∧ (connSend ⟨false, []⟩ [5, 6]).1 = ⟨false, []⟩) :=
  ⟨c9_send_whole_frame_no_precheck.1 ⟨true, []⟩ [5, 6] rfl,
   c9_send_whole_frame_no_precheck.2.2.1 ⟨false, []⟩ [5, 6] rfl⟩

end wsjs

namespace wsjs

/-- State of a `WsStream`: the remainder of a previously split message plus the
connection whose `NextMessage` it consumes. -/
structure WsStreamSt where
  currentBuffer : List Nat
  conn : WsConn
deriving DecidableEq, Repr

/-- Outcome of one `WsStream.Read`: bytes with an optional error, or a call
that blocks because neither a message nor the close signal is ready. -/
inductive WsReadRes where
  | ret (bytes : List Nat) (err : Option GoErr)
  | blockedRes
deriving DecidableEq, Repr

/-- Model of `WsStream.Read` (http_js.go wsjs section lines 761-787): when buffered
bytes from a previous message remain, copy from them only; otherwise fetch
exactly one message via `NextMessage`, copy what fits and buffer the rest
(`copy` transfers `min plen (length source)` bytes).  An error from
`NextMessage` is returned as `(0, err)`. -/
def wsRead (s : WsStreamSt) (pick : Bool) (plen : Nat) :
    WsReadRes × WsStreamSt :=
  if s.currentBuffer ≠ [] then
    let n := min plen s.currentBuffer.length
    (.ret (s.currentBuffer.take n) none,
      { s with currentBuffer := s.currentBuffer.drop n })
  else
    match nextMessage s.conn pick with
    | (.msg m, c') =>
        let n := min plen m.length
        (.ret (m.take n) none, { currentBuffer := m.drop n, conn := c' })
    | (.closedErr, c') =>
        (.ret [] (some (.errMsg "websocket connection closed")),
          { s with conn := c' })
    | (.blocked, c') => (.blockedRes, { s with conn := c' })

/-- Claim C10: each `WsStream.Read` serves bytes from at most one message —
buffered-remainder reads touch no new message, successful reads are always a
prefix of either the carried remainder or of exactly one dequeued message
(never a concatenation of two messages), and a zero-length inbound message
yields `(0, nil)` — no error, not an end-of-stream signal — leaving the
stream ready for the next message. -/
theorem c10_read_serves_one_message :
    (∀ (s : WsStreamSt) (pick : Bool) (plen : Nat),
        s.currentBuffer ≠ [] →
          wsRead s pick plen
            = (.ret (s.currentBuffer.take (min plen s.currentBuffer.length))
                none,
               ⟨s.currentBuffer.drop (min plen s.currentBuffer.length),
                s.conn⟩))
    ∧ (∀ (s : WsStreamSt) (pick : Bool) (plen : Nat) (bytes : List Nat)
          (e : Option GoErr),
        (wsRead s pick plen).1 = .ret bytes e → e = none →
          bytes = s.currentBuffer.take (min plen s.currentBuffer.length)
          ∨ ∃ m rest, s.conn.queue = m :: rest
              ∧ bytes = m.take (min plen m.length))
    ∧ (∀ (s : WsStreamSt) (pick : Bool) (plen : Nat)
          (rest : List (List Nat)),
        s.currentBuffer = [] → s.conn.queue = [] :: rest →
          s.conn.closed = false →
          wsRead s pick plen = (.ret [] none, ⟨[], ⟨rest, false⟩⟩)) := by
  refine ⟨?_, ?_, ?_⟩
  · intro s pick plen hne
    rcases s with ⟨buf, conn⟩
    simp only [wsRead, if_pos hne]
  · intro s pick plen bytes e hret he
    rcases s with ⟨buf, conn⟩
    by_cases hb : buf = []
    · subst hb
      rcases conn with ⟨queue, closed⟩
      cases queue with
      | nil =>
        cases closed with
        | true =>
          exfalso
          simp [wsRead, nextMessage] at hret
          rw [← hret.2] at he
          simp at he
        | false => simp [wsRead, nextMessage] at hret
      | cons m q =>
        cases closed with
        | false =>
          right
          refine ⟨m, q, rfl, ?_⟩
          simp [wsRead, nextMessage] at hret
          exact hret.1.symm
        | true =>
          cases pick with
          | true =>
            right
            refine ⟨m, q, rfl, ?_⟩
            simp [wsRead, nextMessage] at hret
            exact hret.1.symm
          | false =>
            exfalso
            simp [wsRead, nextMessage] at hret
            rw [← hret.2] at he
            simp at he
    · left
      rw [wsRead, if_pos hb] at hret
      simp only at hret
      injection hret with h1 h2
      exact h1.symm
  · intro s pick plen rest hbuf hq hcl
    rcases s with ⟨buf, conn⟩
    rcases conn with ⟨queue, closed⟩
    simp only at hbuf hq hcl
    subst hbuf
    subst hq
    subst hcl
    cases pick <;> simp [wsRead, nextMessage]

/-- Witness for C10, at concrete states: a buffered remainder `[9,8]` is
served without touching the connection; a fresh read takes its bytes from
the single queued message `[4,5]`; a zero-length message yields `(0, nil)`
and is consumed. -/
theorem c10_witness :
    (wsRead ⟨[9, 8], ⟨[], false⟩⟩ true 1
        = (.ret ([9, 8].take (min 1 2)) none, ⟨[9, 8].drop (min 1 2), ⟨[], false⟩⟩))
    ∧ ([4] = ([] : List Nat).take (min 1 0)
        ∨ ∃ m rest, ([[4, 5]] : List (List Nat)) = m :: rest
            ∧ [4] = m.take (min 1 m.length))
    ∧ (wsRead ⟨[], ⟨[[]], false⟩⟩ true 3 = (.ret [] none, ⟨[], ⟨[], false⟩⟩)) :=
  ⟨c10_read_serves_one_message.1 ⟨[9, 8], ⟨[], false⟩⟩ true 1 (by decide),
   c10_read_serves_one_message.2.1 ⟨[], ⟨[[4, 5]], false⟩⟩ true 1 [4] none rfl rfl,
   c10_read_serves_one_message.2.2 ⟨[], ⟨[[]], false⟩⟩ true 3 [] rfl rfl rfl⟩

end wsjs
